import Mathlib

/-!
Verification of the face-tracking and line-crossing core of
`src/script.js` (the `detectFaces` per-frame update, the greedy
nearest-neighbour matching pass, ghost aging, track spawning and the
enter/exit counters).

The JavaScript numbers are modelled as rationals (`ℚ`); the
insertion-ordered `Map` of tracked face states is modelled as a list of
`FaceState` in insertion order.  The per-frame update `detectFaces`
rebuilds the whole state from the previous one, exactly as the source
builds `NEXT_FRAME_TRACKED_FACES` and then replaces `trackedFaceStates`.
-/

/-- `const PROXIMITY_THRESHOLD = 100;` -/
def PROXIMITY_THRESHOLD : ℚ := 100

/-- `const CENTER_LINE_X_THRESHOLD = 0.5;` -/
def CENTER_LINE_X_THRESHOLD : ℚ := 0.5

/-- `const MAX_MISS_FRAMES = 5;` -/
def MAX_MISS_FRAMES : ℕ := 5

/-- A detection bounding box, with the fields the source reads
(`originX`, `originY`, `width`, `height`). -/
structure BoundingBox where
  originX : ℚ
  originY : ℚ
  width : ℚ
  height : ℚ
deriving DecidableEq

/-- The side of the centre line, the `'left' | 'right'` strings of the
source. -/
inductive Side where
  | left
  | right
deriving DecidableEq

/-- One tracked face state: the value stored in the `trackedFaceStates`
map, together with its key `id`. -/
structure FaceState where
  id : ℕ
  prevCenterFlippedX : ℚ
  lastSide : Side
  isEnterCounted : Bool
  isExitCounted : Bool
  missedFrames : ℕ
  boundingBox : BoundingBox
deriving DecidableEq

/-- The whole mutable state of the engine: the insertion-ordered
`trackedFaceStates` map (as a list), `nextTrackingId`, `enterCount` and
`exitCount`. -/
structure EngineState where
  trackedFaceStates : List FaceState
  nextTrackingId : ℕ
  enterCount : ℕ
  exitCount : ℕ
deriving DecidableEq

/-- `getFlippedBoxCenter(boundingBox, canvasWidth)`:
`const flippedX = canvasWidth - boundingBox.originX - boundingBox.width;
return flippedX + boundingBox.width / 2;` -/
def getFlippedBoxCenter (boundingBox : BoundingBox) (canvasWidth : ℚ) : ℚ :=
  let flippedX := canvasWidth - boundingBox.originX - boundingBox.width
  flippedX + boundingBox.width / 2

/-- `currentCenterFlippedX < centerLineX ? 'left' : 'right'` -/
def sideOfCenter (c centerLineX : ℚ) : Side :=
  if c < centerLineX then Side.left else Side.right

/-- `const distance = Math.abs(currentCenterFlippedX - oldState.prevCenterFlippedX);`
with `currentCenterFlippedX = getFlippedBoxCenter(detection.boundingBox, canvasElement.width)`. -/
def detDistance (prevCenter w : ℚ) (d : BoundingBox) : ℚ :=
  |getFlippedBoxCenter d w - prevCenter|

/-- The inner matching loop of the persistence pass: walking
`unmatchedDetections` from index `i` with the best candidate so far
(`bestMatchIndex`, its box, `minDistance`), keep a detection when
`distance < PROXIMITY_THRESHOLD && distance < minDistance`
(`minDistance` starts at `Infinity`, modelled by the `none` case). -/
def findBestFrom (prevCenter w : ℚ) :
    ℕ → Option (ℕ × BoundingBox × ℚ) → List BoundingBox → Option (ℕ × BoundingBox × ℚ)
  | _, best, [] => best
  | i, best, d :: rest =>
    let distance := detDistance prevCenter w d
    let best' :=
      match best with
      | none => if distance < PROXIMITY_THRESHOLD then some (i, d, distance) else none
      | some (j, b, minDistance) =>
        if distance < PROXIMITY_THRESHOLD ∧ distance < minDistance then
          some (i, d, distance)
        else
          some (j, b, minDistance)
    findBestFrom prevCenter w (i + 1) best' rest

/-- The whole inner loop `for (let i = 0; i < unmatchedDetections.length; i++)`
searching for the best match of one old track. -/
def findBestMatch (prevCenter w : ℚ) (pool : List BoundingBox) :
    Option (ℕ × BoundingBox × ℚ) :=
  findBestFrom prevCenter w 0 none pool

/-- Branch A of the persistence pass (`Match Found: Update State`):
build `currentState` from `oldState` with the new centre, box and
`missedFrames: 0`, then run the counting logic.  Returns the new state
and the increments applied to `enterCount` and `exitCount`. -/
def matchedUpdate (w centerLineX : ℚ) (oldState : FaceState)
    (newBoundingBox : BoundingBox) : FaceState × ℕ × ℕ :=
  let currentCenterFlippedX := getFlippedBoxCenter newBoundingBox w
  let currentState : FaceState :=
    { oldState with
      prevCenterFlippedX := currentCenterFlippedX
      missedFrames := 0
      boundingBox := newBoundingBox }
  let currentSide := sideOfCenter currentCenterFlippedX centerLineX
  if currentSide ≠ currentState.lastSide then
    if currentState.lastSide = Side.left ∧ currentSide = Side.right ∧
        currentState.isEnterCounted = false then
      ({ currentState with isEnterCounted := true, lastSide := currentSide }, 1, 0)
    else if currentState.lastSide = Side.right ∧ currentSide = Side.left ∧
        currentState.isExitCounted = false then
      ({ currentState with isExitCounted := true, lastSide := currentSide }, 0, 1)
    else
      ({ currentState with lastSide := currentSide }, 0, 0)
  else
    (currentState, 0, 0)

/-- The persistence-and-matching loop over the old tracks (source
section `2. PERSISTENCE & MATCHING`): for each old state, find the best
still-unmatched detection; on a match splice it out of the pool and run
the matched update, otherwise age the track and keep it only while
`missedFrames` stays within `MAX_MISS_FRAMES`.  Returns the next-frame
states of the old tracks, the remaining unmatched pool and the total
increments of the two counters. -/
def matchingPass (w centerLineX : ℚ) :
    List FaceState → List BoundingBox → List FaceState × List BoundingBox × ℕ × ℕ
  | [], pool => ([], pool, 0, 0)
  | oldState :: rest, pool =>
    match findBestMatch oldState.prevCenterFlippedX w pool with
    | some (i, b, _) =>
      let r := matchedUpdate w centerLineX oldState b
      let rec' := matchingPass w centerLineX rest (pool.eraseIdx i)
      (r.1 :: rec'.1, rec'.2.1, r.2.1 + rec'.2.2.1, r.2.2 + rec'.2.2.2)
    | none =>
      let newMissedFrames := oldState.missedFrames + 1
      if newMissedFrames ≤ MAX_MISS_FRAMES then
        let rec' := matchingPass w centerLineX rest pool
        ({ oldState with missedFrames := newMissedFrames } :: rec'.1,
          rec'.2.1, rec'.2.2.1, rec'.2.2.2)
      else
        matchingPass w centerLineX rest pool

/-- The `newState` object built for an unmatched detection (source
section `3. NEW DETECTION`). -/
def newFaceState (boundingBox : BoundingBox) (w centerLineX : ℚ) (foundId : ℕ) :
    FaceState :=
  let currentCenterFlippedX := getFlippedBoxCenter boundingBox w
  { id := foundId
    prevCenterFlippedX := currentCenterFlippedX
    lastSide := sideOfCenter currentCenterFlippedX centerLineX
    isEnterCounted := false
    isExitCounted := false
    missedFrames := 0
    boundingBox := boundingBox }

/-- The loop `for (const detection of unmatchedDetections)` spawning one
new track per leftover detection with `const foundId = nextTrackingId++`.
Returns the new states and the final `nextTrackingId`. -/
def spawnTracks (w centerLineX : ℚ) :
    List BoundingBox → ℕ → List FaceState × ℕ
  | [], nextTrackingId => ([], nextTrackingId)
  | boundingBox :: rest, nextTrackingId =>
    let r := spawnTracks w centerLineX rest (nextTrackingId + 1)
    (newFaceState boundingBox w centerLineX nextTrackingId :: r.1, r.2)

/-- One call of the per-frame update `detectFaces`, restricted to the
state-bearing core (drawing and DOM updates read the state but never
write it): run the persistence/matching pass over the old tracks, spawn
tracks for the leftover detections, replace `trackedFaceStates` with the
freshly built map and add the counting increments to the global
counters. -/
def detectFaces (s : EngineState) (newDetections : List BoundingBox) (w : ℚ) :
    EngineState :=
  let centerLineX := w * CENTER_LINE_X_THRESHOLD
  let m := matchingPass w centerLineX s.trackedFaceStates newDetections
  let sp := spawnTracks w centerLineX m.2.1 s.nextTrackingId
  { trackedFaceStates := m.1 ++ sp.1
    nextTrackingId := sp.2
    enterCount := s.enterCount + m.2.2.1
    exitCount := s.exitCount + m.2.2.2 }

/-! ### Properties of the inner matching loop -/

/-- Full characterisation of the inner loop, by induction on the still
unscanned suffix, generalising the running index and the best candidate
so far. -/
lemma findBestFrom_spec (c w : ℚ) (rest : List BoundingBox) :
    ∀ (i : ℕ) (best : Option (ℕ × BoundingBox × ℚ)),
      (∀ j0 b0 m0, best = some (j0, b0, m0) → m0 < PROXIMITY_THRESHOLD) →
      (findBestFrom c w i best rest = none →
          best = none ∧ ∀ b ∈ rest, PROXIMITY_THRESHOLD ≤ detDistance c w b) ∧
      (∀ j b m, findBestFrom c w i best rest = some (j, b, m) →
          m < PROXIMITY_THRESHOLD ∧
          (∀ b' ∈ rest, m ≤ detDistance c w b') ∧
          (best = some (j, b, m) ∨
            (i ≤ j ∧ rest[j - i]? = some b ∧ m = detDistance c w b)) ∧
          (∀ j0 b0 m0, best = some (j0, b0, m0) → m ≤ m0)) := by
  induction rest with
  | nil =>
    intro i best hbest
    refine ⟨fun h => ⟨h, by simp⟩, ?_⟩
    intro j b m h
    simp only [findBestFrom] at h
    refine ⟨hbest _ _ _ h, by simp, Or.inl h, ?_⟩
    intro j0 b0 m0 h0
    rw [h] at h0
    simp only [Option.some.injEq, Prod.mk.injEq] at h0
    exact le_of_eq h0.2.2
  | cons d rest ih =>
    intro i best hbest
    rcases best with _ | ⟨j0, b0, m0⟩
    · by_cases hd : detDistance c w d < PROXIMITY_THRESHOLD
      · -- the head becomes the running best
        have hstep : findBestFrom c w i none (d :: rest) =
            findBestFrom c w (i + 1) (some (i, d, detDistance c w d)) rest := by
          simp [findBestFrom, hd]
        have hb' : ∀ j0 b0 m0,
            (some (i, d, detDistance c w d) :
              Option (ℕ × BoundingBox × ℚ)) = some (j0, b0, m0) →
            m0 < PROXIMITY_THRESHOLD := by
          intro j0 b0 m0 h0
          simp only [Option.some.injEq, Prod.mk.injEq] at h0
          rw [← h0.2.2]; exact hd
        obtain ⟨ihn, ihs⟩ := ih (i + 1) (some (i, d, detDistance c w d)) hb'
        constructor
        · intro h
          rw [hstep] at h
          exact absurd (ihn h).1 (by simp)
        · intro j b m h
          rw [hstep] at h
          obtain ⟨h1, h2, h3, h4⟩ := ihs j b m h
          refine ⟨h1, ?_, ?_, by intro j0 b0 m0 h0; cases h0⟩
          · intro b' hb'
            rcases List.mem_cons.mp hb' with hb' | hb'
            · rw [hb']; exact h4 i d (detDistance c w d) rfl
            · exact h2 b' hb'
          · rcases h3 with h3 | h3
            · simp only [Option.some.injEq, Prod.mk.injEq] at h3
              refine Or.inr ⟨le_of_eq h3.1, ?_, h3.2.2.symm ▸ (by rw [h3.2.1])⟩
              rw [← h3.1]
              simp [h3.2.1]
            · refine Or.inr ⟨le_trans (Nat.le_succ i) h3.1, ?_, h3.2.2⟩
              have hji : j - i = (j - (i + 1)) + 1 := by omega
              rw [hji, List.getElem?_cons_succ]
              exact h3.2.1
      · -- the head is out of range; the best stays `none`
        have hstep : findBestFrom c w i none (d :: rest) =
            findBestFrom c w (i + 1) none rest := by
          simp [findBestFrom, hd]
        have hb' : ∀ j0 b0 m0, (none : Option (ℕ × BoundingBox × ℚ)) = some (j0, b0, m0) →
            m0 < PROXIMITY_THRESHOLD := by intro j0 b0 m0 h0; cases h0
        obtain ⟨ihn, ihs⟩ := ih (i + 1) none hb'
        constructor
        · intro h
          rw [hstep] at h
          obtain ⟨h1, h2⟩ := ihn h
          refine ⟨rfl, ?_⟩
          intro b hb
          rcases List.mem_cons.mp hb with hb | hb
          · rw [hb]; exact le_of_not_lt hd
          · exact h2 b hb
        · intro j b m h
          rw [hstep] at h
          obtain ⟨h1, h2, h3, h4⟩ := ihs j b m h
          refine ⟨h1, ?_, ?_, by intro j0 b0 m0 h0; cases h0⟩
          · intro b' hb'
            rcases List.mem_cons.mp hb' with hb' | hb'
            · rw [hb']; exact le_of_lt (lt_of_lt_of_le h1 (le_of_not_lt hd))
            · exact h2 b' hb'
          · rcases h3 with h3 | h3
            · cases h3
            · refine Or.inr ⟨le_trans (Nat.le_succ i) h3.1, ?_, h3.2.2⟩
              have hji : j - i = (j - (i + 1)) + 1 := by omega
              rw [hji, List.getElem?_cons_succ]
              exact h3.2.1
    · -- a running best `some (j0, b0, m0)` is already present
      by_cases hc : detDistance c w d < PROXIMITY_THRESHOLD ∧ detDistance c w d < m0
      · have hstep : findBestFrom c w i (some (j0, b0, m0)) (d :: rest) =
            findBestFrom c w (i + 1) (some (i, d, detDistance c w d)) rest := by
          simp [findBestFrom, hc]
        have hb' : ∀ ja ba ma,
            (some (i, d, detDistance c w d) :
              Option (ℕ × BoundingBox × ℚ)) = some (ja, ba, ma) →
            ma < PROXIMITY_THRESHOLD := by
          intro ja ba ma h0
          simp only [Option.some.injEq, Prod.mk.injEq] at h0
          rw [← h0.2.2]; exact hc.1
        obtain ⟨ihn, ihs⟩ := ih (i + 1) (some (i, d, detDistance c w d)) hb'
        constructor
        · intro h
          rw [hstep] at h
          exact absurd (ihn h).1 (by simp)
        · intro j b m h
          rw [hstep] at h
          obtain ⟨h1, h2, h3, h4⟩ := ihs j b m h
          have hmd : m ≤ detDistance c w d := h4 i d (detDistance c w d) rfl
          refine ⟨h1, ?_, ?_, ?_⟩
          · intro b' hb'
            rcases List.mem_cons.mp hb' with hb' | hb'
            · rw [hb']; exact hmd
            · exact h2 b' hb'
          · rcases h3 with h3 | h3
            · simp only [Option.some.injEq, Prod.mk.injEq] at h3
              refine Or.inr ⟨le_of_eq h3.1, ?_, h3.2.2.symm ▸ (by rw [h3.2.1])⟩
              rw [← h3.1]
              simp [h3.2.1]
            · refine Or.inr ⟨le_trans (Nat.le_succ i) h3.1, ?_, h3.2.2⟩
              have hji : j - i = (j - (i + 1)) + 1 := by omega
              rw [hji, List.getElem?_cons_succ]
              exact h3.2.1
          · intro ja ba ma h0
            simp only [Option.some.injEq, Prod.mk.injEq] at h0
            rw [← h0.2.2]
            exact le_of_lt (lt_of_le_of_lt hmd hc.2)
      · have hstep : findBestFrom c w i (some (j0, b0, m0)) (d :: rest) =
            findBestFrom c w (i + 1) (some (j0, b0, m0)) rest := by
          simp [findBestFrom, hc]
        obtain ⟨ihn, ihs⟩ := ih (i + 1) (some (j0, b0, m0)) hbest
        constructor
        · intro h
          rw [hstep] at h
          exact absurd (ihn h).1 (by simp)
        · intro j b m h
          rw [hstep] at h
          obtain ⟨h1, h2, h3, h4⟩ := ihs j b m h
          have hmm0 : m ≤ m0 := h4 j0 b0 m0 rfl
          refine ⟨h1, ?_, ?_, ?_⟩
          · intro b' hb'
            rcases List.mem_cons.mp hb' with hb' | hb'
            · rw [hb']
              rcases not_and_or.mp hc with hc1 | hc1
              · exact le_of_lt (lt_of_lt_of_le h1 (le_of_not_lt hc1))
              · exact le_trans hmm0 (le_of_not_lt hc1)
            · exact h2 b' hb'
          · rcases h3 with h3 | h3
            · exact Or.inl h3
            · refine Or.inr ⟨le_trans (Nat.le_succ i) h3.1, ?_, h3.2.2⟩
              have hji : j - i = (j - (i + 1)) + 1 := by omega
              rw [hji, List.getElem?_cons_succ]
              exact h3.2.1
          · intro ja ba ma h0
            simp only [Option.some.injEq, Prod.mk.injEq] at h0
            rw [← h0.2.2]
            exact hmm0

/-- A successful `findBestMatch` returns the index and box of a pool
element together with its distance, the distance is inside the
proximity threshold, and it is minimal over the whole pool. -/
lemma findBestMatch_some (c w : ℚ) (pool : List BoundingBox) (j : ℕ)
    (b : BoundingBox) (m : ℚ) (h : findBestMatch c w pool = some (j, b, m)) :
    pool[j]? = some b ∧ m = detDistance c w b ∧ m < PROXIMITY_THRESHOLD ∧
      ∀ b' ∈ pool, m ≤ detDistance c w b' := by
  obtain ⟨-, hs⟩ := findBestFrom_spec c w pool 0 none (by intro j0 b0 m0 h0; cases h0)
  obtain ⟨h1, h2, h3, -⟩ := hs j b m h
  rcases h3 with h3 | h3
  · cases h3
  · refine ⟨?_, h3.2.2, h1, h2⟩
    have : j - 0 = j := Nat.sub_zero j
    rw [← this]
    exact h3.2.1

/-- A failed `findBestMatch` means every pool element is at least the
proximity threshold away. -/
lemma findBestMatch_none (c w : ℚ) (pool : List BoundingBox)
    (h : findBestMatch c w pool = none) :
    ∀ b ∈ pool, PROXIMITY_THRESHOLD ≤ detDistance c w b := by
  obtain ⟨hn, -⟩ := findBestFrom_spec c w pool 0 none (by intro j0 b0 m0 h0; cases h0)
  exact (hn h).2

/-- The matched index is a valid index of the pool. -/
lemma findBestMatch_lt_length (c w : ℚ) (pool : List BoundingBox) (j : ℕ)
    (b : BoundingBox) (m : ℚ) (h : findBestMatch c w pool = some (j, b, m)) :
    j < pool.length := by
  have := (findBestMatch_some c w pool j b m h).1
  exact (List.getElem?_eq_some.mp this).1

/-! ### Properties of the matched update (counting logic) -/

/-- Full characterisation of `matchedUpdate`: the updated fields, the
final side, the one-shot flags and the exact counter increments. -/
lemma matchedUpdate_spec (w centerLineX : ℚ) (t : FaceState) (b : BoundingBox) :
    (matchedUpdate w centerLineX t b).1.id = t.id ∧
    (matchedUpdate w centerLineX t b).1.missedFrames = 0 ∧
    (matchedUpdate w centerLineX t b).1.prevCenterFlippedX = getFlippedBoxCenter b w ∧
    (matchedUpdate w centerLineX t b).1.boundingBox = b ∧
    (matchedUpdate w centerLineX t b).1.lastSide =
      sideOfCenter (getFlippedBoxCenter b w) centerLineX ∧
    (matchedUpdate w centerLineX t b).2.1 =
      (if t.lastSide = Side.left ∧
          sideOfCenter (getFlippedBoxCenter b w) centerLineX = Side.right ∧
          t.isEnterCounted = false then 1 else 0) ∧
    (matchedUpdate w centerLineX t b).2.2 =
      (if t.lastSide = Side.right ∧
          sideOfCenter (getFlippedBoxCenter b w) centerLineX = Side.left ∧
          t.isExitCounted = false then 1 else 0) ∧
    (matchedUpdate w centerLineX t b).1.isEnterCounted =
      (if t.lastSide = Side.left ∧
          sideOfCenter (getFlippedBoxCenter b w) centerLineX = Side.right ∧
          t.isEnterCounted = false then true else t.isEnterCounted) ∧
    (matchedUpdate w centerLineX t b).1.isExitCounted =
      (if t.lastSide = Side.right ∧
          sideOfCenter (getFlippedBoxCenter b w) centerLineX = Side.left ∧
          t.isExitCounted = false then true else t.isExitCounted) := by
  cases hside : sideOfCenter (getFlippedBoxCenter b w) centerLineX <;>
    cases hlast : t.lastSide <;>
    cases hen : t.isEnterCounted <;>
    cases hex : t.isExitCounted <;>
      simp [matchedUpdate, hside, hlast, hen, hex]

/-- The matched update never resets a one-shot flag. -/
lemma matchedUpdate_flags_mono (w centerLineX : ℚ) (t : FaceState) (b : BoundingBox) :
    (t.isEnterCounted = true → (matchedUpdate w centerLineX t b).1.isEnterCounted = true) ∧
    (t.isExitCounted = true → (matchedUpdate w centerLineX t b).1.isExitCounted = true) := by
  obtain ⟨-, -, -, -, -, -, -, h8, h9⟩ := matchedUpdate_spec w centerLineX t b
  constructor
  · intro h
    rw [h8, h]
    split <;> rfl
  · intro h
    rw [h9, h]
    split <;> rfl

/-! ### Step lemmas for the persistence/matching pass -/

/-- Unfolding `matchingPass` when the head track finds a match. -/
lemma matchingPass_cons_some (w centerLineX : ℚ) (t : FaceState)
    (rest : List FaceState) (pool : List BoundingBox) (i : ℕ) (b : BoundingBox) (m : ℚ)
    (hm : findBestMatch t.prevCenterFlippedX w pool = some (i, b, m)) :
    matchingPass w centerLineX (t :: rest) pool =
      ((matchedUpdate w centerLineX t b).1 ::
          (matchingPass w centerLineX rest (pool.eraseIdx i)).1,
        (matchingPass w centerLineX rest (pool.eraseIdx i)).2.1,
        (matchedUpdate w centerLineX t b).2.1 +
          (matchingPass w centerLineX rest (pool.eraseIdx i)).2.2.1,
        (matchedUpdate w centerLineX t b).2.2 +
          (matchingPass w centerLineX rest (pool.eraseIdx i)).2.2.2) := by
  simp only [matchingPass, hm]

/-- Unfolding `matchingPass` when the head track finds no match and is
kept as a ghost. -/
lemma matchingPass_cons_none_keep (w centerLineX : ℚ) (t : FaceState)
    (rest : List FaceState) (pool : List BoundingBox)
    (hm : findBestMatch t.prevCenterFlippedX w pool = none)
    (hk : t.missedFrames + 1 ≤ MAX_MISS_FRAMES) :
    matchingPass w centerLineX (t :: rest) pool =
      ({ t with missedFrames := t.missedFrames + 1 } ::
          (matchingPass w centerLineX rest pool).1,
        (matchingPass w centerLineX rest pool).2.1,
        (matchingPass w centerLineX rest pool).2.2.1,
        (matchingPass w centerLineX rest pool).2.2.2) := by
  simp only [matchingPass, hm, if_pos hk]

/-- Unfolding `matchingPass` when the head track finds no match and has
exhausted its miss tolerance. -/
lemma matchingPass_cons_none_drop (w centerLineX : ℚ) (t : FaceState)
    (rest : List FaceState) (pool : List BoundingBox)
    (hm : findBestMatch t.prevCenterFlippedX w pool = none)
    (hk : ¬ t.missedFrames + 1 ≤ MAX_MISS_FRAMES) :
    matchingPass w centerLineX (t :: rest) pool =
      matchingPass w centerLineX rest pool := by
  simp only [matchingPass, hm, if_neg hk]

/-- Every output track of the matching pass descends from exactly one
input track: same id, one-shot flags only ever raised. -/
lemma matchingPass_out_mem (w centerLineX : ℚ) :
    ∀ (tracks : List FaceState) (pool : List BoundingBox),
      ∀ t' ∈ (matchingPass w centerLineX tracks pool).1,
        ∃ u ∈ tracks, t'.id = u.id ∧
          (u.isEnterCounted = true → t'.isEnterCounted = true) ∧
          (u.isExitCounted = true → t'.isExitCounted = true) := by
  intro tracks
  induction tracks with
  | nil => intro pool t' h; simp [matchingPass] at h
  | cons t rest ih =>
    intro pool t' h
    cases hm : findBestMatch t.prevCenterFlippedX w pool with
    | some v =>
      obtain ⟨i, b, m⟩ := v
      rw [matchingPass_cons_some w centerLineX t rest pool i b m hm] at h
      rcases List.mem_cons.mp h with h | h
      · refine ⟨t, List.mem_cons_self t rest, ?_⟩
        obtain ⟨hid, -⟩ := matchedUpdate_spec w centerLineX t b
        obtain ⟨hmn1, hmn2⟩ := matchedUpdate_flags_mono w centerLineX t b
        rw [h]
        exact ⟨hid, hmn1, hmn2⟩
      · obtain ⟨u, hu, hrest⟩ := ih (pool.eraseIdx i) t' h
        exact ⟨u, List.mem_cons_of_mem t hu, hrest⟩
    | none =>
      by_cases hk : t.missedFrames + 1 ≤ MAX_MISS_FRAMES
      · rw [matchingPass_cons_none_keep w centerLineX t rest pool hm hk] at h
        rcases List.mem_cons.mp h with h | h
        · refine ⟨t, List.mem_cons_self t rest, ?_⟩
          rw [h]
          exact ⟨rfl, fun h => h, fun h => h⟩
        · obtain ⟨u, hu, hrest⟩ := ih pool t' h
          exact ⟨u, List.mem_cons_of_mem t hu, hrest⟩
      · rw [matchingPass_cons_none_drop w centerLineX t rest pool hm hk] at h
        obtain ⟨u, hu, hrest⟩ := ih pool t' h
        exact ⟨u, List.mem_cons_of_mem t hu, hrest⟩

/-- The ids of the matching-pass output form a sublist of the input ids
(tracks are processed in list order, each yielding at most one output). -/
lemma matchingPass_map_id_sublist (w centerLineX : ℚ) :
    ∀ (tracks : List FaceState) (pool : List BoundingBox),
      ((matchingPass w centerLineX tracks pool).1.map FaceState.id).Sublist
        (tracks.map FaceState.id) := by
  intro tracks
  induction tracks with
  | nil => intro pool; simp [matchingPass]
  | cons t rest ih =>
    intro pool
    cases hm : findBestMatch t.prevCenterFlippedX w pool with
    | some v =>
      obtain ⟨i, b, m⟩ := v
      rw [matchingPass_cons_some w centerLineX t rest pool i b m hm]
      simp only [List.map_cons]
      have hid : (matchedUpdate w centerLineX t b).1.id = t.id :=
        (matchedUpdate_spec w centerLineX t b).1
      rw [hid]
      exact List.Sublist.cons₂ t.id (ih (pool.eraseIdx i))
    | none =>
      by_cases hk : t.missedFrames + 1 ≤ MAX_MISS_FRAMES
      · rw [matchingPass_cons_none_keep w centerLineX t rest pool hm hk]
        simp only [List.map_cons]
        exact List.Sublist.cons₂ t.id (ih pool)
      · rw [matchingPass_cons_none_drop w centerLineX t rest pool hm hk]
        exact List.Sublist.trans (ih pool) (List.sublist_cons_self t.id (rest.map FaceState.id))

/-- The leftover pool is a sublist of the incoming pool. -/
lemma matchingPass_pool_sublist (w centerLineX : ℚ) :
    ∀ (tracks : List FaceState) (pool : List BoundingBox),
      ((matchingPass w centerLineX tracks pool).2.1).Sublist pool := by
  intro tracks
  induction tracks with
  | nil => intro pool; simp [matchingPass]
  | cons t rest ih =>
    intro pool
    cases hm : findBestMatch t.prevCenterFlippedX w pool with
    | some v =>
      obtain ⟨i, b, m⟩ := v
      rw [matchingPass_cons_some w centerLineX t rest pool i b m hm]
      exact List.Sublist.trans (ih (pool.eraseIdx i)) (List.eraseIdx_sublist pool i)
    | none =>
      by_cases hk : t.missedFrames + 1 ≤ MAX_MISS_FRAMES
      · rw [matchingPass_cons_none_keep w centerLineX t rest pool hm hk]
        exact ih pool
      · rw [matchingPass_cons_none_drop w centerLineX t rest pool hm hk]
        exact ih pool

/-- Each accepted match consumes exactly one pool element, and exactly
the matched output tracks have `missedFrames = 0`: the number of
`missedFrames = 0` outputs plus the leftover pool size equals the
incoming pool size. -/
lemma matchingPass_count_mf0 (w centerLineX : ℚ) :
    ∀ (tracks : List FaceState) (pool : List BoundingBox),
      (matchingPass w centerLineX tracks pool).1.countP
          (fun t => t.missedFrames == 0) +
        (matchingPass w centerLineX tracks pool).2.1.length = pool.length := by
  intro tracks
  induction tracks with
  | nil => intro pool; simp [matchingPass]
  | cons t rest ih =>
    intro pool
    cases hm : findBestMatch t.prevCenterFlippedX w pool with
    | some v =>
      obtain ⟨i, b, m⟩ := v
      rw [matchingPass_cons_some w centerLineX t rest pool i b m hm]
      have hlt : i < pool.length := findBestMatch_lt_length _ w pool i b m hm
      have herase : (pool.eraseIdx i).length = pool.length - 1 := by
        rw [List.length_eraseIdx, if_pos hlt]
      have hmf : (matchedUpdate w centerLineX t b).1.missedFrames = 0 :=
        (matchedUpdate_spec w centerLineX t b).2.1
      have hih := ih (pool.eraseIdx i)
      rw [herase] at hih
      simp [List.countP_cons, hmf]
      omega
    | none =>
      by_cases hk : t.missedFrames + 1 ≤ MAX_MISS_FRAMES
      · rw [matchingPass_cons_none_keep w centerLineX t rest pool hm hk]
        have hih := ih pool
        have hg : ({ t with missedFrames := t.missedFrames + 1 } : FaceState).missedFrames
            = t.missedFrames + 1 := rfl
        simp [List.countP_cons, hg]
        omega
      · rw [matchingPass_cons_none_drop w centerLineX t rest pool hm hk]
        exact ih pool

/-- The total counter increments of the matching pass are exactly the
numbers of output tracks whose `isEnterCounted` (resp. `isExitCounted`)
flag flipped from false to true, looked up by id in a reference list
`full` that agrees with the processed tracks on the flags. -/
lemma matchingPass_counts_exact (w centerLineX : ℚ) (full : List FaceState) :
    ∀ (tracks : List FaceState) (pool : List BoundingBox),
      (∀ t ∈ tracks,
        (full.any fun u => u.id == t.id && !u.isEnterCounted) = !t.isEnterCounted) →
      (∀ t ∈ tracks,
        (full.any fun u => u.id == t.id && !u.isExitCounted) = !t.isExitCounted) →
      (matchingPass w centerLineX tracks pool).2.2.1 =
        (matchingPass w centerLineX tracks pool).1.countP
          (fun v => v.isEnterCounted &&
            full.any fun u => u.id == v.id && !u.isEnterCounted) ∧
      (matchingPass w centerLineX tracks pool).2.2.2 =
        (matchingPass w centerLineX tracks pool).1.countP
          (fun v => v.isExitCounted &&
            full.any fun u => u.id == v.id && !u.isExitCounted) := by
  intro tracks
  induction tracks with
  | nil => intro pool he hx; simp [matchingPass]
  | cons t rest ih =>
    intro pool he hx
    have het := he t (List.mem_cons_self t rest)
    have hxt := hx t (List.mem_cons_self t rest)
    have herest : ∀ u ∈ rest,
        (full.any fun v => v.id == u.id && !v.isEnterCounted) = !u.isEnterCounted :=
      fun u hu => he u (List.mem_cons_of_mem t hu)
    have hxrest : ∀ u ∈ rest,
        (full.any fun v => v.id == u.id && !v.isExitCounted) = !u.isExitCounted :=
      fun u hu => hx u (List.mem_cons_of_mem t hu)
    cases hm : findBestMatch t.prevCenterFlippedX w pool with
    | some v =>
      obtain ⟨i, b, m⟩ := v
      rw [matchingPass_cons_some w centerLineX t rest pool i b m hm]
      obtain ⟨hih1, hih2⟩ := ih (pool.eraseIdx i) herest hxrest
      obtain ⟨hid, -, -, -, -, hde, hdx, hfe, hfx⟩ := matchedUpdate_spec w centerLineX t b
      simp only [List.countP_cons]
      constructor
      · rw [← hih1]
        have hany : (full.any fun u =>
            u.id == (matchedUpdate w centerLineX t b).1.id && !u.isEnterCounted) =
            !t.isEnterCounted := by rw [hid]; exact het
        by_cases hc : t.lastSide = Side.left ∧
            sideOfCenter (getFlippedBoxCenter b w) centerLineX = Side.right ∧
            t.isEnterCounted = false
        · rw [if_pos hc] at hde hfe
          simp [hde, hfe, hany, hc.2.2]
          omega
        · rw [if_neg hc] at hde hfe
          rcases hb : t.isEnterCounted with - | -
          · -- the flag did not flip, and no increment happened
            simp [hde, hfe, hany, hb]
          · simp [hde, hfe, hany, hb]
      · rw [← hih2]
        have hany : (full.any fun u =>
            u.id == (matchedUpdate w centerLineX t b).1.id && !u.isExitCounted) =
            !t.isExitCounted := by rw [hid]; exact hxt
        by_cases hc : t.lastSide = Side.right ∧
            sideOfCenter (getFlippedBoxCenter b w) centerLineX = Side.left ∧
            t.isExitCounted = false
        · rw [if_pos hc] at hdx hfx
          simp [hdx, hfx, hany, hc.2.2]
          omega
        · rw [if_neg hc] at hdx hfx
          rcases hb : t.isExitCounted with - | -
          · simp [hdx, hfx, hany, hb]
          · simp [hdx, hfx, hany, hb]
    | none =>
      by_cases hk : t.missedFrames + 1 ≤ MAX_MISS_FRAMES
      · rw [matchingPass_cons_none_keep w centerLineX t rest pool hm hk]
        obtain ⟨hih1, hih2⟩ := ih pool herest hxrest
        have hgid : ({ t with missedFrames := t.missedFrames + 1 } : FaceState).id
            = t.id := rfl
        have hgen : ({ t with missedFrames := t.missedFrames + 1 } : FaceState).isEnterCounted
            = t.isEnterCounted := rfl
        have hgex : ({ t with missedFrames := t.missedFrames + 1 } : FaceState).isExitCounted
            = t.isExitCounted := rfl
        simp only [List.countP_cons]
        constructor
        · rw [← hih1]
          simp [hgid, hgen, het]
        · rw [← hih2]
          simp [hgid, hgex, hxt]
      · rw [matchingPass_cons_none_drop w centerLineX t rest pool hm hk]
        exact ih pool herest hxrest

/-- In a list with no duplicate ids, the `any`-lookup of a member's
flag by id returns exactly the member's own flag, negated. -/
lemma any_id_flag (f : FaceState → Bool) (l : List FaceState)
    (hn : (l.map FaceState.id).Nodup) (t : FaceState) (ht : t ∈ l) :
    (l.any fun u => u.id == t.id && !(f u)) = !(f t) := by
  cases hf : f t with
  | false =>
    rw [List.any_eq_true.mpr ⟨t, ht, by simp [hf]⟩]
    rfl
  | true =>
    rw [List.any_eq_false.mpr ?_]
    · rfl
    · intro u hu
      by_cases hid : u.id = t.id
      · have : u = t := List.inj_on_of_nodup_map hn hu ht hid
        simp [this, hf]
      · simp [hid]

/-- With no detections at all, every old track simply ages by one
missed frame: kept with `missedFrames + 1` while within tolerance,
dropped otherwise; nothing is consumed and nothing is counted. -/
lemma matchingPass_nil_pool (w centerLineX : ℚ) :
    ∀ tracks : List FaceState,
      matchingPass w centerLineX tracks [] =
        (tracks.filterMap (fun t =>
            if t.missedFrames + 1 ≤ MAX_MISS_FRAMES
            then some { t with missedFrames := t.missedFrames + 1 } else none),
          [], 0, 0) := by
  intro tracks
  induction tracks with
  | nil => simp [matchingPass]
  | cons t rest ih =>
    have hm : findBestMatch t.prevCenterFlippedX w [] = none := rfl
    by_cases hk : t.missedFrames + 1 ≤ MAX_MISS_FRAMES
    · rw [matchingPass_cons_none_keep w centerLineX t rest [] hm hk, ih]
      simp [List.filterMap_cons, hk]
    · rw [matchingPass_cons_none_drop w centerLineX t rest [] hm hk, ih]
      simp [List.filterMap_cons, hk]

/-! ### Properties of track spawning -/

/-- The final `nextTrackingId` after spawning. -/
lemma spawnTracks_nextId (w centerLineX : ℚ) :
    ∀ (pool : List BoundingBox) (n : ℕ),
      (spawnTracks w centerLineX pool n).2 = n + pool.length := by
  intro pool
  induction pool with
  | nil => intro n; simp [spawnTracks]
  | cons b rest ih =>
    intro n
    simp only [spawnTracks, ih (n + 1), List.length_cons]
    omega

/-- The ids handed out by spawning are consecutive, starting at the
incoming `nextTrackingId`. -/
lemma spawnTracks_map_id (w centerLineX : ℚ) :
    ∀ (pool : List BoundingBox) (n : ℕ),
      (spawnTracks w centerLineX pool n).1.map FaceState.id =
        List.range' n pool.length := by
  intro pool
  induction pool with
  | nil => intro n; simp [spawnTracks]
  | cons b rest ih =>
    intro n
    simp only [spawnTracks, List.map_cons, List.length_cons, List.range'_succ, ih (n + 1)]
    rfl

/-- Every spawned track is the `newState` of one leftover detection,
with its own freshly assigned id. -/
lemma spawnTracks_mem (w centerLineX : ℚ) :
    ∀ (pool : List BoundingBox) (n : ℕ),
      ∀ t' ∈ (spawnTracks w centerLineX pool n).1,
        n ≤ t'.id ∧ t'.id < n + pool.length ∧
          ∃ b ∈ pool, t' = newFaceState b w centerLineX t'.id := by
  intro pool
  induction pool with
  | nil => intro n t' h; simp [spawnTracks] at h
  | cons b rest ih =>
    intro n t' h
    simp only [spawnTracks] at h
    rcases List.mem_cons.mp h with h | h
    · have hid : t'.id = n := by rw [h]; rfl
      refine ⟨le_of_eq hid.symm, by rw [hid]; simp, b, List.mem_cons_self b rest, ?_⟩
      rw [hid, h]
    · obtain ⟨h1, h2, bb, hbb, hh⟩ := ih (n + 1) t' h
      refine ⟨by omega, by simp only [List.length_cons]; omega,
        bb, List.mem_cons_of_mem b hbb, hh⟩

/-- Spawned tracks all carry `missedFrames = 0` and cleared flags. -/
lemma spawnTracks_fresh_fields (w centerLineX : ℚ) (pool : List BoundingBox) (n : ℕ) :
    ∀ t' ∈ (spawnTracks w centerLineX pool n).1,
      t'.missedFrames = 0 ∧ t'.isEnterCounted = false ∧ t'.isExitCounted = false ∧
        t'.prevCenterFlippedX = getFlippedBoxCenter t'.boundingBox w ∧
        t'.lastSide = sideOfCenter t'.prevCenterFlippedX centerLineX := by
  intro t' h
  obtain ⟨-, -, b, -, hh⟩ := spawnTracks_mem w centerLineX pool n t' h
  rw [hh]
  exact ⟨rfl, rfl, rfl, rfl, rfl⟩

/-- The number of spawned tracks equals the number of leftover
detections. -/
lemma spawnTracks_length (w centerLineX : ℚ) (pool : List BoundingBox) (n : ℕ) :
    (spawnTracks w centerLineX pool n).1.length = pool.length := by
  have := congrArg List.length (spawnTracks_map_id w centerLineX pool n)
  simpa using this

/-! ### Unfolding the per-frame update -/

lemma detectFaces_tracks (s : EngineState) (d : List BoundingBox) (w : ℚ) :
    (detectFaces s d w).trackedFaceStates =
      (matchingPass w (w * CENTER_LINE_X_THRESHOLD) s.trackedFaceStates d).1 ++
        (spawnTracks w (w * CENTER_LINE_X_THRESHOLD)
          (matchingPass w (w * CENTER_LINE_X_THRESHOLD) s.trackedFaceStates d).2.1
          s.nextTrackingId).1 := rfl

lemma detectFaces_nextId (s : EngineState) (d : List BoundingBox) (w : ℚ) :
    (detectFaces s d w).nextTrackingId =
      (spawnTracks w (w * CENTER_LINE_X_THRESHOLD)
        (matchingPass w (w * CENTER_LINE_X_THRESHOLD) s.trackedFaceStates d).2.1
        s.nextTrackingId).2 := rfl

lemma detectFaces_enter (s : EngineState) (d : List BoundingBox) (w : ℚ) :
    (detectFaces s d w).enterCount =
      s.enterCount +
        (matchingPass w (w * CENTER_LINE_X_THRESHOLD) s.trackedFaceStates d).2.2.1 := rfl

lemma detectFaces_exit (s : EngineState) (d : List BoundingBox) (w : ℚ) :
    (detectFaces s d w).exitCount =
      s.exitCount +
        (matchingPass w (w * CENTER_LINE_X_THRESHOLD) s.trackedFaceStates d).2.2.2 := rfl

/-! ### The claims -/

/-- C7: the coordinate normalizer computes
`(frame_width - originX - width) + width / 2`; it is a pure function of
its two arguments, and the identical function feeds both the
matching-distance computation and a new track's seeded `center_x`. -/
theorem getFlippedBoxCenter_pure_normalizer (b b' : BoundingBox)
    (w w' c centerLineX : ℚ) (t : FaceState) (n : ℕ) :
    getFlippedBoxCenter b w = (w - b.originX - b.width) + b.width / 2 ∧
    (b = b' → w = w' → getFlippedBoxCenter b w = getFlippedBoxCenter b' w') ∧
    (newFaceState b w centerLineX n).prevCenterFlippedX = getFlippedBoxCenter b w ∧
    (matchedUpdate w centerLineX t b).1.prevCenterFlippedX = getFlippedBoxCenter b w ∧
    detDistance c w b = |getFlippedBoxCenter b w - c| ∧
    findBestMatch c w [b] =
      (if detDistance c w b < PROXIMITY_THRESHOLD
        then some (0, b, detDistance c w b) else none) := by
  refine ⟨rfl, ?_, rfl, (matchedUpdate_spec w centerLineX t b).2.2.1, rfl, ?_⟩
  · intro h1 h2
    rw [h1, h2]
  · show findBestFrom c w 0 none [b] = _
    simp only [findBestFrom]

/-- Witness for C7 at a concrete box, width and state. -/
theorem getFlippedBoxCenter_pure_normalizer_witness :
    getFlippedBoxCenter ⟨10, 0, 20, 30⟩ 200 =
      (200 - (10 : ℚ) - 20) + 20 / 2 ∧
    getFlippedBoxCenter ⟨10, 0, 20, 30⟩ 200 = getFlippedBoxCenter ⟨10, 0, 20, 30⟩ 200 := by
  obtain ⟨h1, h2, -⟩ := getFlippedBoxCenter_pure_normalizer ⟨10, 0, 20, 30⟩ ⟨10, 0, 20, 30⟩
    200 200 0 100 ⟨0, 0, Side.left, false, false, 0, ⟨0, 0, 0, 0⟩⟩ 0
  exact ⟨h1, h2 rfl rfl⟩

/-- C8: the per-frame update is deterministic: equal detection lists,
equal frame widths and equal prior states produce equal results. -/
theorem detectFaces_deterministic (s1 s2 : EngineState)
    (d1 d2 : List BoundingBox) (w1 w2 : ℚ)
    (hs : s1 = s2) (hd : d1 = d2) (hw : w1 = w2) :
    detectFaces s1 d1 w1 = detectFaces s2 d2 w2 := by
  rw [hs, hd, hw]

/-- Witness for C8 at a concrete state and detection list. -/
theorem detectFaces_deterministic_witness :
    detectFaces ⟨[], 0, 0, 0⟩ [⟨10, 0, 20, 30⟩] 200 =
      detectFaces ⟨[], 0, 0, 0⟩ [⟨10, 0, 20, 30⟩] 200 :=
  detectFaces_deterministic ⟨[], 0, 0, 0⟩ ⟨[], 0, 0, 0⟩
    [⟨10, 0, 20, 30⟩] [⟨10, 0, 20, 30⟩] 200 200 rfl rfl rfl

/-- C9: the update is a total function; with zero detections every
track ages by one missed frame (kept while within tolerance, dropped
otherwise), no track is spawned and the counters are untouched. -/
theorem detectFaces_total_graceful (s : EngineState) (d : List BoundingBox) (w : ℚ) :
    (∃ r : EngineState, detectFaces s d w = r) ∧
    detectFaces s [] w =
      { trackedFaceStates :=
          s.trackedFaceStates.filterMap (fun t =>
            if t.missedFrames + 1 ≤ MAX_MISS_FRAMES
            then some { t with missedFrames := t.missedFrames + 1 } else none)
        nextTrackingId := s.nextTrackingId
        enterCount := s.enterCount
        exitCount := s.exitCount } := by
  refine ⟨⟨detectFaces s d w, rfl⟩, ?_⟩
  have h := matchingPass_nil_pool w (w * CENTER_LINE_X_THRESHOLD) s.trackedFaceStates
  simp [detectFaces, h, spawnTracks]

/-- C10: after every update, the number of returned tracks with
`missedFrames = 0` is exactly the number of input detections. -/
theorem detectFaces_active_track_count (s : EngineState) (d : List BoundingBox) (w : ℚ) :
    (detectFaces s d w).trackedFaceStates.countP
      (fun t => t.missedFrames == 0) = d.length := by
  rw [detectFaces_tracks, List.countP_append]
  have h1 := matchingPass_count_mf0 w (w * CENTER_LINE_X_THRESHOLD) s.trackedFaceStates d
  have h2 : (spawnTracks w (w * CENTER_LINE_X_THRESHOLD)
      (matchingPass w (w * CENTER_LINE_X_THRESHOLD) s.trackedFaceStates d).2.1
      s.nextTrackingId).1.countP (fun t => t.missedFrames == 0) =
      (matchingPass w (w * CENTER_LINE_X_THRESHOLD) s.trackedFaceStates d).2.1.length := by
    rw [← spawnTracks_length w (w * CENTER_LINE_X_THRESHOLD)
      (matchingPass w (w * CENTER_LINE_X_THRESHOLD) s.trackedFaceStates d).2.1
      s.nextTrackingId]
    rw [List.countP_eq_length]
    intro a ha
    have := (spawnTracks_fresh_fields w (w * CENTER_LINE_X_THRESHOLD)
      (matchingPass w (w * CENTER_LINE_X_THRESHOLD) s.trackedFaceStates d).2.1
      s.nextTrackingId a ha).1
    simp [this]
  rw [h2]
  omega

/-- C2: on a matched update the new side is Left iff the new centre is
strictly below `frame_width * 0.5`; the enter counter fires exactly on
an unflagged Left-to-Right crossing, the exit counter exactly on an
unflagged Right-to-Left crossing (both judged against the stored side
from before this frame), and the stored side afterwards always equals
the newly computed side. -/
theorem matchedUpdate_crossing_rule (w : ℚ) (t : FaceState) (b : BoundingBox) :
    (sideOfCenter (getFlippedBoxCenter b w) (w * CENTER_LINE_X_THRESHOLD) = Side.left ↔
      getFlippedBoxCenter b w < w * (0.5 : ℚ)) ∧
    (matchedUpdate w (w * CENTER_LINE_X_THRESHOLD) t b).1.lastSide =
      sideOfCenter (getFlippedBoxCenter b w) (w * CENTER_LINE_X_THRESHOLD) ∧
    (matchedUpdate w (w * CENTER_LINE_X_THRESHOLD) t b).2.1 =
      (if t.lastSide = Side.left ∧
          sideOfCenter (getFlippedBoxCenter b w) (w * CENTER_LINE_X_THRESHOLD) = Side.right ∧
          t.isEnterCounted = false then 1 else 0) ∧
    (matchedUpdate w (w * CENTER_LINE_X_THRESHOLD) t b).2.2 =
      (if t.lastSide = Side.right ∧
          sideOfCenter (getFlippedBoxCenter b w) (w * CENTER_LINE_X_THRESHOLD) = Side.left ∧
          t.isExitCounted = false then 1 else 0) ∧
    (matchedUpdate w (w * CENTER_LINE_X_THRESHOLD) t b).1.isEnterCounted =
      (if t.lastSide = Side.left ∧
          sideOfCenter (getFlippedBoxCenter b w) (w * CENTER_LINE_X_THRESHOLD) = Side.right ∧
          t.isEnterCounted = false then true else t.isEnterCounted) ∧
    (matchedUpdate w (w * CENTER_LINE_X_THRESHOLD) t b).1.isExitCounted =
      (if t.lastSide = Side.right ∧
          sideOfCenter (getFlippedBoxCenter b w) (w * CENTER_LINE_X_THRESHOLD) = Side.left ∧
          t.isExitCounted = false then true else t.isExitCounted) := by
  obtain ⟨-, -, -, -, h5, h6, h7, h8, h9⟩ :=
    matchedUpdate_spec w (w * CENTER_LINE_X_THRESHOLD) t b
  refine ⟨?_, h5, h6, h7, h8, h9⟩
  unfold sideOfCenter CENTER_LINE_X_THRESHOLD
  split
  · rename_i h
    simp [h]
  · rename_i h
    simp [h]

/-- Witness for C2: a track on the left matched to a detection whose
mirrored centre lands on the right of the line fires the enter counter. -/
theorem matchedUpdate_crossing_rule_witness :
    (sideOfCenter (getFlippedBoxCenter ⟨30, 0, 10, 10⟩ 200) (200 * CENTER_LINE_X_THRESHOLD) =
        Side.left ↔ getFlippedBoxCenter ⟨30, 0, 10, 10⟩ 200 < 200 * (0.5 : ℚ)) ∧
    (matchedUpdate 200 (200 * CENTER_LINE_X_THRESHOLD)
        ⟨0, 40, Side.left, false, false, 0, ⟨0, 0, 0, 0⟩⟩ ⟨30, 0, 10, 10⟩).2.1 =
      (if (Side.left : Side) = Side.left ∧
          sideOfCenter (getFlippedBoxCenter ⟨30, 0, 10, 10⟩ 200) (200 * CENTER_LINE_X_THRESHOLD) =
            Side.right ∧ (false : Bool) = false then 1 else 0) := by
  have h := matchedUpdate_crossing_rule 200
    ⟨0, 40, Side.left, false, false, 0, ⟨0, 0, 0, 0⟩⟩ ⟨30, 0, 10, 10⟩
  exact ⟨h.1, h.2.2.1⟩

/-- C6: a ghosted (unmatched but retained) track keeps every field
except `missedFrames` identical to the previous frame, and unmatched
tracks never move either counter. -/
theorem ghosted_track_unchanged (w centerLineX : ℚ) (t : FaceState)
    (rest : List FaceState) (pool : List BoundingBox)
    (h1 : findBestMatch t.prevCenterFlippedX w pool = none)
    (h2 : t.missedFrames + 1 ≤ MAX_MISS_FRAMES) :
    (matchingPass w centerLineX (t :: rest) pool).1 =
      { t with missedFrames := t.missedFrames + 1 } ::
        (matchingPass w centerLineX rest pool).1 ∧
    ({ t with missedFrames := t.missedFrames + 1 } : FaceState).id = t.id ∧
    ({ t with missedFrames := t.missedFrames + 1 } : FaceState).prevCenterFlippedX =
      t.prevCenterFlippedX ∧
    ({ t with missedFrames := t.missedFrames + 1 } : FaceState).lastSide = t.lastSide ∧
    ({ t with missedFrames := t.missedFrames + 1 } : FaceState).isEnterCounted =
      t.isEnterCounted ∧
    ({ t with missedFrames := t.missedFrames + 1 } : FaceState).isExitCounted =
      t.isExitCounted ∧
    ({ t with missedFrames := t.missedFrames + 1 } : FaceState).boundingBox =
      t.boundingBox ∧
    ({ t with missedFrames := t.missedFrames + 1 } : FaceState).missedFrames =
      t.missedFrames + 1 ∧
    (matchingPass w centerLineX (t :: rest) pool).2.2.1 =
      (matchingPass w centerLineX rest pool).2.2.1 ∧
    (matchingPass w centerLineX (t :: rest) pool).2.2.2 =
      (matchingPass w centerLineX rest pool).2.2.2 := by
  rw [matchingPass_cons_none_keep w centerLineX t rest pool h1 h2]
  exact ⟨rfl, rfl, rfl, rfl, rfl, rfl, rfl, rfl, rfl, rfl⟩

/-- Witness for C6: a track with no detection nearby is ghosted with
only its miss counter bumped. -/
theorem ghosted_track_unchanged_witness :
    (matchingPass 200 100 [⟨0, 40, Side.left, false, false, 0, ⟨0, 0, 0, 0⟩⟩] []).1 =
      { (⟨0, 40, Side.left, false, false, 0, ⟨0, 0, 0, 0⟩⟩ : FaceState) with
          missedFrames := 0 + 1 } :: (matchingPass 200 100 [] []).1 ∧
    (matchingPass 200 100 [⟨0, 40, Side.left, false, false, 0, ⟨0, 0, 0, 0⟩⟩] []).2.2.1 =
      (matchingPass 200 100 [] []).2.2.1 := by
  have h := ghosted_track_unchanged 200 100
    ⟨0, 40, Side.left, false, false, 0, ⟨0, 0, 0, 0⟩⟩ [] [] rfl (by decide)
  exact ⟨h.1, h.2.2.2.2.2.2.2.2.1⟩

/-- A frame with no detections over a single-track state: the track
ages by one, kept only within tolerance; counters and id counter are
untouched. -/
lemma detectFaces_singleton_nil (w : ℚ) (u : FaceState) (n e x : ℕ) :
    detectFaces ⟨[u], n, e, x⟩ [] w =
      ⟨if u.missedFrames + 1 ≤ MAX_MISS_FRAMES
        then [{ u with missedFrames := u.missedFrames + 1 }] else [], n, e, x⟩ := by
  have h := matchingPass_nil_pool w (w * CENTER_LINE_X_THRESHOLD) [u]
  by_cases hk : u.missedFrames + 1 ≤ MAX_MISS_FRAMES
  · simp only [detectFaces, h, List.filterMap_cons, List.filterMap_nil, if_pos hk]
    simp [spawnTracks]
  · simp only [detectFaces, h, List.filterMap_cons, List.filterMap_nil, if_neg hk]
    simp [spawnTracks]

/-- Iterating detection-free frames adds one missed frame per frame to
a surviving track. -/
lemma detectFaces_iterate_nil (w : ℚ) (t : FaceState) (n e x : ℕ) :
    ∀ k j, j + k ≤ MAX_MISS_FRAMES →
      (fun st => detectFaces st [] w)^[k] ⟨[{ t with missedFrames := j }], n, e, x⟩ =
        ⟨[{ t with missedFrames := j + k }], n, e, x⟩ := by
  intro k
  induction k with
  | zero => intro j h; simp
  | succ k ih =>
    intro j h
    rw [Function.iterate_succ_apply]
    have hcond : ({ t with missedFrames := j } : FaceState).missedFrames + 1 ≤
        MAX_MISS_FRAMES := by
      show j + 1 ≤ MAX_MISS_FRAMES
      omega
    have hstep : detectFaces ⟨[{ t with missedFrames := j }], n, e, x⟩ [] w =
        ⟨[{ t with missedFrames := j + 1 }], n, e, x⟩ := by
      rw [detectFaces_singleton_nil w { t with missedFrames := j } n e x, if_pos hcond]
    simp only [hstep]
    rw [ih (j + 1) (by omega)]
    have : j + 1 + k = j + (k + 1) := by omega
    rw [this]

/-- C4: `missedFrames` is reset to 0 on every match and bumped by
exactly 1 on every miss; an unmatched track survives exactly while the
bumped value stays within the tolerance of 5.  A track missing 5
consecutive frames is still present with `missedFrames = 5`; on the 6th
consecutive miss it is gone. -/
theorem missed_frames_tolerance (w centerLineX : ℚ) (t : FaceState)
    (rest : List FaceState) (pool : List BoundingBox) (b : BoundingBox)
    (n e x : ℕ) :
    (matchedUpdate w centerLineX t b).1.missedFrames = 0 ∧
    (findBestMatch t.prevCenterFlippedX w pool = none →
      (t.missedFrames + 1 ≤ MAX_MISS_FRAMES →
        (matchingPass w centerLineX (t :: rest) pool).1 =
          { t with missedFrames := t.missedFrames + 1 } ::
            (matchingPass w centerLineX rest pool).1) ∧
      (¬ t.missedFrames + 1 ≤ MAX_MISS_FRAMES →
        (matchingPass w centerLineX (t :: rest) pool).1 =
          (matchingPass w centerLineX rest pool).1)) ∧
    (fun st => detectFaces st [] w)^[5]
        ⟨[{ t with missedFrames := 0 }], n, e, x⟩ =
      ⟨[{ t with missedFrames := 5 }], n, e, x⟩ ∧
    (fun st => detectFaces st [] w)^[6]
        ⟨[{ t with missedFrames := 0 }], n, e, x⟩ =
      ⟨[], n, e, x⟩ := by
  refine ⟨(matchedUpdate_spec w centerLineX t b).2.1, ?_, ?_, ?_⟩
  · intro hm
    constructor
    · intro hk
      rw [matchingPass_cons_none_keep w centerLineX t rest pool hm hk]
    · intro hk
      rw [matchingPass_cons_none_drop w centerLineX t rest pool hm hk]
  · have h := detectFaces_iterate_nil w t n e x 5 0 (by decide)
    simpa using h
  · have h5 := detectFaces_iterate_nil w t n e x 5 0 (by decide)
    rw [Function.iterate_succ_apply']
    rw [show ((0 : ℕ) + 5) = 5 by decide] at h5
    rw [h5]
    have hdrop : ¬ ({ t with missedFrames := 5 } : FaceState).missedFrames + 1 ≤
        MAX_MISS_FRAMES := by
      show ¬ (5 : ℕ) + 1 ≤ MAX_MISS_FRAMES
      decide
    rw [detectFaces_singleton_nil w { t with missedFrames := 5 } n e x, if_neg hdrop]

/-- Witness for C4 at a concrete track, pool and box. -/
theorem missed_frames_tolerance_witness :
    (matchingPass 200 100 [⟨0, 40, Side.left, false, false, 2, ⟨0, 0, 0, 0⟩⟩] []).1 =
      { (⟨0, 40, Side.left, false, false, 2, ⟨0, 0, 0, 0⟩⟩ : FaceState) with
          missedFrames := 2 + 1 } :: (matchingPass 200 100 [] []).1 := by
  have h := missed_frames_tolerance 200 100
    ⟨0, 40, Side.left, false, false, 2, ⟨0, 0, 0, 0⟩⟩ [] [] ⟨0, 0, 0, 0⟩ 0 0 0
  exact (h.2.1 rfl).1 (by decide)

/-- C5: every leftover detection spawns exactly one new track with a
fresh, strictly larger id than all previously assigned ids, cleared
flags, `missedFrames = 0`, centre and side computed by the normalizer;
id uniqueness is preserved, and spawning alone never moves a counter. -/
theorem spawned_tracks_fresh (s : EngineState) (d d2 : List BoundingBox) (w : ℚ)
    (n e x : ℕ)
    (hlt : ∀ t ∈ s.trackedFaceStates, t.id < s.nextTrackingId) :
    s.nextTrackingId ≤ (detectFaces s d w).nextTrackingId ∧
    (detectFaces s d w).nextTrackingId =
      s.nextTrackingId +
        (matchingPass w (w * CENTER_LINE_X_THRESHOLD) s.trackedFaceStates d).2.1.length ∧
    (∀ t' ∈ (detectFaces s d w).trackedFaceStates,
        t'.id < (detectFaces s d w).nextTrackingId) ∧
    (∀ t' ∈ (detectFaces s d w).trackedFaceStates, s.nextTrackingId ≤ t'.id →
        t'.isEnterCounted = false ∧ t'.isExitCounted = false ∧ t'.missedFrames = 0 ∧
        t'.prevCenterFlippedX = getFlippedBoxCenter t'.boundingBox w ∧
        t'.lastSide = sideOfCenter t'.prevCenterFlippedX (w * CENTER_LINE_X_THRESHOLD) ∧
        ∀ t ∈ s.trackedFaceStates, t.id < t'.id) ∧
    ((s.trackedFaceStates.map FaceState.id).Nodup →
        ((detectFaces s d w).trackedFaceStates.map FaceState.id).Nodup) ∧
    (detectFaces ⟨[], n, e, x⟩ d2 w).enterCount = e ∧
    (detectFaces ⟨[], n, e, x⟩ d2 w).exitCount = x := by
  have hnext := detectFaces_nextId s d w
  have hsp := spawnTracks_nextId w (w * CENTER_LINE_X_THRESHOLD)
    (matchingPass w (w * CENTER_LINE_X_THRESHOLD) s.trackedFaceStates d).2.1
    s.nextTrackingId
  have htr := detectFaces_tracks s d w
  refine ⟨by rw [hnext, hsp]; omega, by rw [hnext, hsp], ?_, ?_, ?_, ?_, ?_⟩
  · intro t' ht'
    rw [htr] at ht'
    rw [hnext, hsp]
    rcases List.mem_append.mp ht' with h | h
    · obtain ⟨u, hu, hid, -⟩ := matchingPass_out_mem w (w * CENTER_LINE_X_THRESHOLD)
        s.trackedFaceStates d t' h
      have := hlt u hu
      omega
    · obtain ⟨-, h2, -⟩ := spawnTracks_mem w (w * CENTER_LINE_X_THRESHOLD)
        (matchingPass w (w * CENTER_LINE_X_THRESHOLD) s.trackedFaceStates d).2.1
        s.nextTrackingId t' h
      omega
  · intro t' ht' hge
    rw [htr] at ht'
    rcases List.mem_append.mp ht' with h | h
    · obtain ⟨u, hu, hid, -⟩ := matchingPass_out_mem w (w * CENTER_LINE_X_THRESHOLD)
        s.trackedFaceStates d t' h
      have := hlt u hu
      omega
    · obtain ⟨-, -, b, -, heq⟩ := spawnTracks_mem w (w * CENTER_LINE_X_THRESHOLD)
        (matchingPass w (w * CENTER_LINE_X_THRESHOLD) s.trackedFaceStates d).2.1
        s.nextTrackingId t' h
      refine ⟨by rw [heq]; rfl, by rw [heq]; rfl, by rw [heq]; rfl, by rw [heq]; rfl,
        by rw [heq]; rfl, ?_⟩
      intro t ht
      exact lt_of_lt_of_le (hlt t ht) hge
  · intro hn
    rw [htr, List.map_append, List.nodup_append]
    refine ⟨List.Nodup.sublist (matchingPass_map_id_sublist w
        (w * CENTER_LINE_X_THRESHOLD) s.trackedFaceStates d) hn, ?_, ?_⟩
    · rw [spawnTracks_map_id]
      exact List.nodup_range' s.nextTrackingId _
    · intro a ha hb
      rw [spawnTracks_map_id] at hb
      have hge := (List.mem_range'_1.mp hb).1
      obtain ⟨t', ht', hid⟩ := List.mem_map.mp ha
      obtain ⟨u, hu, huid, -⟩ := matchingPass_out_mem w (w * CENTER_LINE_X_THRESHOLD)
        s.trackedFaceStates d t' ht'
      have := hlt u hu
      omega
  · rw [detectFaces_enter]
    simp [matchingPass]
  · rw [detectFaces_exit]
    simp [matchingPass]

/-- Witness for C5: one detection over an empty state spawns one fresh
track and leaves the counters alone. -/
theorem spawned_tracks_fresh_witness :
    (0 : ℕ) ≤ (detectFaces ⟨[], 0, 0, 0⟩ [⟨10, 0, 20, 30⟩] 200).nextTrackingId ∧
    (detectFaces ⟨[], 7, 3, 4⟩ [⟨10, 0, 20, 30⟩] 200).enterCount = 3 ∧
    (detectFaces ⟨[], 7, 3, 4⟩ [⟨10, 0, 20, 30⟩] 200).exitCount = 4 := by
  have h := spawned_tracks_fresh ⟨[], 0, 0, 0⟩ [⟨10, 0, 20, 30⟩] [⟨10, 0, 20, 30⟩]
    200 7 3 4 (by intro t ht; cases ht)
  exact ⟨le_trans (Nat.zero_le _) h.1, h.2.2.2.2.2.1, h.2.2.2.2.2.2⟩

/-- C3: a track's match is the unmatched detection at minimal absolute
centre distance, accepted only strictly inside the proximity threshold
of 100 (first index wins ties); an accepted detection is removed from
the pool, so matched tracks and consumed detections are in bijection;
and the ascending-id processing order of the tracked map is preserved
by the per-frame update. -/
theorem matching_nearest_gated (c w : ℚ) (pool dets : List BoundingBox)
    (i : ℕ) (b : BoundingBox) (m : ℚ) (s : EngineState) :
    (findBestMatch c w pool = some (i, b, m) →
      pool[i]? = some b ∧ m = |getFlippedBoxCenter b w - c| ∧
      m < PROXIMITY_THRESHOLD ∧
      ∀ b' ∈ pool, m ≤ |getFlippedBoxCenter b' w - c|) ∧
    (findBestMatch c w pool = none →
      ∀ b' ∈ pool, PROXIMITY_THRESHOLD ≤ |getFlippedBoxCenter b' w - c|) ∧
    ((matchingPass w (w * CENTER_LINE_X_THRESHOLD) s.trackedFaceStates dets).2.1).Sublist
      dets ∧
    ((matchingPass w (w * CENTER_LINE_X_THRESHOLD) s.trackedFaceStates dets).1.countP
        (fun t => t.missedFrames == 0) +
      (matchingPass w (w * CENTER_LINE_X_THRESHOLD) s.trackedFaceStates dets).2.1.length =
        dets.length) ∧
    ((s.trackedFaceStates.map FaceState.id).Pairwise (fun a1 a2 => a1 < a2) →
      (∀ t ∈ s.trackedFaceStates, t.id < s.nextTrackingId) →
      ((detectFaces s dets w).trackedFaceStates.map FaceState.id).Pairwise
        (fun a1 a2 => a1 < a2)) := by
  refine ⟨?_, ?_, matchingPass_pool_sublist w (w * CENTER_LINE_X_THRESHOLD)
      s.trackedFaceStates dets,
    matchingPass_count_mf0 w (w * CENTER_LINE_X_THRESHOLD) s.trackedFaceStates dets, ?_⟩
  · intro h
    obtain ⟨h1, h2, h3, h4⟩ := findBestMatch_some c w pool i b m h
    refine ⟨h1, h2, h3, ?_⟩
    intro b' hb'
    exact h4 b' hb'
  · intro h
    exact findBestMatch_none c w pool h
  · intro hsorted hlt
    rw [detectFaces_tracks, List.map_append, List.pairwise_append]
    refine ⟨List.Pairwise.sublist (matchingPass_map_id_sublist w
        (w * CENTER_LINE_X_THRESHOLD) s.trackedFaceStates dets) hsorted, ?_, ?_⟩
    · rw [spawnTracks_map_id]
      exact List.pairwise_lt_range' s.nextTrackingId _
    · intro a ha a2 ha2
      rw [spawnTracks_map_id] at ha2
      have hge := (List.mem_range'_1.mp ha2).1
      obtain ⟨t', ht', hid⟩ := List.mem_map.mp ha
      obtain ⟨u, hu, huid, -⟩ := matchingPass_out_mem w (w * CENTER_LINE_X_THRESHOLD)
        s.trackedFaceStates dets t' ht'
      have := hlt u hu
      omega

/-- Witness for C3: with a track centred at 180 and two detections at
mirrored centres 180 and 175, the nearer one (index 0, distance 0) is
selected. -/
theorem matching_nearest_gated_witness :
    ([(⟨10, 0, 20, 30⟩ : BoundingBox), ⟨15, 0, 20, 30⟩][0]? =
        some (⟨10, 0, 20, 30⟩ : BoundingBox)) ∧
    (0 : ℚ) = |getFlippedBoxCenter ⟨10, 0, 20, 30⟩ 200 - 180| ∧
    (0 : ℚ) < PROXIMITY_THRESHOLD ∧
    ∀ b' ∈ [(⟨10, 0, 20, 30⟩ : BoundingBox), ⟨15, 0, 20, 30⟩],
      (0 : ℚ) ≤ |getFlippedBoxCenter b' 200 - 180| := by
  have h := matching_nearest_gated 180 200
    [⟨10, 0, 20, 30⟩, ⟨15, 0, 20, 30⟩] [] 0 ⟨10, 0, 20, 30⟩ 0 ⟨[], 0, 0, 0⟩
  exact h.1 (by norm_num [findBestMatch, findBestFrom, detDistance,
    getFlippedBoxCenter, PROXIMITY_THRESHOLD])

/-- C1: over one update, a surviving track's `isEnterCounted` and
`isExitCounted` flags never fall back from true to false (so each flips
false-to-true at most once over the track's lifetime); each global
counter grows by exactly the number of returned tracks whose
corresponding flag flipped this frame; and both counters are
monotonically non-decreasing. -/
theorem one_shot_flags_exact_counts (s : EngineState) (d : List BoundingBox) (w : ℚ)
    (hids : (s.trackedFaceStates.map FaceState.id).Nodup)
    (hlt : ∀ t ∈ s.trackedFaceStates, t.id < s.nextTrackingId) :
    (∀ t ∈ s.trackedFaceStates, ∀ t' ∈ (detectFaces s d w).trackedFaceStates,
        t'.id = t.id →
        (t.isEnterCounted = true → t'.isEnterCounted = true) ∧
        (t.isExitCounted = true → t'.isExitCounted = true)) ∧
    (detectFaces s d w).enterCount = s.enterCount +
      (detectFaces s d w).trackedFaceStates.countP
        (fun v => v.isEnterCounted &&
          s.trackedFaceStates.any fun u => u.id == v.id && !u.isEnterCounted) ∧
    (detectFaces s d w).exitCount = s.exitCount +
      (detectFaces s d w).trackedFaceStates.countP
        (fun v => v.isExitCounted &&
          s.trackedFaceStates.any fun u => u.id == v.id && !u.isExitCounted) ∧
    s.enterCount ≤ (detectFaces s d w).enterCount ∧
    s.exitCount ≤ (detectFaces s d w).exitCount := by
  have htr := detectFaces_tracks s d w
  have he := detectFaces_enter s d w
  have hx := detectFaces_exit s d w
  have hfull_e : ∀ t ∈ s.trackedFaceStates,
      (s.trackedFaceStates.any fun u => u.id == t.id && !u.isEnterCounted) =
        !t.isEnterCounted :=
    fun t ht => any_id_flag FaceState.isEnterCounted s.trackedFaceStates hids t ht
  have hfull_x : ∀ t ∈ s.trackedFaceStates,
      (s.trackedFaceStates.any fun u => u.id == t.id && !u.isExitCounted) =
        !t.isExitCounted :=
    fun t ht => any_id_flag FaceState.isExitCounted s.trackedFaceStates hids t ht
  obtain ⟨hexact_e, hexact_x⟩ := matchingPass_counts_exact w
    (w * CENTER_LINE_X_THRESHOLD) s.trackedFaceStates s.trackedFaceStates d
    hfull_e hfull_x
  refine ⟨?_, ?_, ?_, by rw [he]; exact Nat.le_add_right _ _,
    by rw [hx]; exact Nat.le_add_right _ _⟩
  · intro t ht t' ht' hid
    rw [htr] at ht'
    rcases List.mem_append.mp ht' with h | h
    · obtain ⟨u, hu, huid, hmn1, hmn2⟩ := matchingPass_out_mem w
        (w * CENTER_LINE_X_THRESHOLD) s.trackedFaceStates d t' h
      have hut : u = t := List.inj_on_of_nodup_map hids hu ht (by rw [← huid, hid])
      rw [← hut]
      exact ⟨hmn1, hmn2⟩
    · obtain ⟨hge, -, -⟩ := spawnTracks_mem w (w * CENTER_LINE_X_THRESHOLD)
        (matchingPass w (w * CENTER_LINE_X_THRESHOLD) s.trackedFaceStates d).2.1
        s.nextTrackingId t' h
      have := hlt t ht
      omega
  · rw [he, htr, List.countP_append]
    have hsp0 : (spawnTracks w (w * CENTER_LINE_X_THRESHOLD)
        (matchingPass w (w * CENTER_LINE_X_THRESHOLD) s.trackedFaceStates d).2.1
        s.nextTrackingId).1.countP
        (fun v => v.isEnterCounted &&
          s.trackedFaceStates.any fun u => u.id == v.id && !u.isEnterCounted) = 0 := by
      rw [List.countP_eq_zero]
      intro a ha
      have hfa := (spawnTracks_fresh_fields w (w * CENTER_LINE_X_THRESHOLD)
        (matchingPass w (w * CENTER_LINE_X_THRESHOLD) s.trackedFaceStates d).2.1
        s.nextTrackingId a ha).2.1
      simp [hfa]
    rw [hsp0, hexact_e]
    omega
  · rw [hx, htr, List.countP_append]
    have hsp0 : (spawnTracks w (w * CENTER_LINE_X_THRESHOLD)
        (matchingPass w (w * CENTER_LINE_X_THRESHOLD) s.trackedFaceStates d).2.1
        s.nextTrackingId).1.countP
        (fun v => v.isExitCounted &&
          s.trackedFaceStates.any fun u => u.id == v.id && !u.isExitCounted) = 0 := by
      rw [List.countP_eq_zero]
      intro a ha
      have hfa := (spawnTracks_fresh_fields w (w * CENTER_LINE_X_THRESHOLD)
        (matchingPass w (w * CENTER_LINE_X_THRESHOLD) s.trackedFaceStates d).2.1
        s.nextTrackingId a ha).2.2.1
      simp [hfa]
    rw [hsp0, hexact_x]
    omega

/-- Witness for C1: a left-side track matched to a right-side detection
fires the enter counter exactly once, and the counters never decrease. -/
theorem one_shot_flags_exact_counts_witness :
    (detectFaces ⟨[⟨0, 40, Side.left, false, false, 0, ⟨0, 0, 0, 0⟩⟩], 1, 0, 0⟩
        [⟨80, 0, 20, 10⟩] 200).enterCount =
      0 + (detectFaces ⟨[⟨0, 40, Side.left, false, false, 0, ⟨0, 0, 0, 0⟩⟩], 1, 0, 0⟩
          [⟨80, 0, 20, 10⟩] 200).trackedFaceStates.countP
        (fun v => v.isEnterCounted &&
          [(⟨0, 40, Side.left, false, false, 0, ⟨0, 0, 0, 0⟩⟩ : FaceState)].any
            fun u => u.id == v.id && !u.isEnterCounted) ∧
    (0 : ℕ) ≤ (detectFaces ⟨[⟨0, 40, Side.left, false, false, 0, ⟨0, 0, 0, 0⟩⟩], 1, 0, 0⟩
        [⟨80, 0, 20, 10⟩] 200).enterCount := by
  have h := one_shot_flags_exact_counts
    ⟨[⟨0, 40, Side.left, false, false, 0, ⟨0, 0, 0, 0⟩⟩], 1, 0, 0⟩
    [⟨80, 0, 20, 10⟩] 200 (by decide) (by decide)
  exact ⟨h.2.1, h.2.2.2.1⟩
